import Mathlib

/-!
Shallow embedding of `src/revcontent_campaigns.py`.

The script is a single linear procedure: parse configuration, compute the
desired on/off state, resolve a bearer token, issue one toggle POST per
campaign id, and exit.  We embed it as pure Lean functions over

  * the relevant environment variables (`CAMPAIGN_IDS`, `ACCESS_TOKEN`,
    `CLIENT_ID`, `CLIENT_SECRET`), each an `Option String`;
  * the parsed command-line arguments (`--enabled` mode and `--dry-run`);
  * the current wall-clock hour in America/New_York (the only part of
    `datetime.now` the program inspects);
  * oracles for the network: the token-endpoint response (or a
    network-level exception) and, per toggle call, the response (or a
    network-level exception).

The run produces an exit code, the ordered list of network calls issued,
and the per-campaign toggle outcomes.  Printing is observability output
and is not modelled, except that the branch condition of the
`WARN: CAMPAIGN_IDS not parseable` message is captured by
`campaigns_env_warned`.

String handling notes: Python `str.strip` / `str.split(",")` / `int(...)`
are modelled by structural recursion over the character list of the
string (`stripChars`, `splitCommaChars`, `parseIntChars`), with the usual
ASCII whitespace set; Python's extra exotic forms (unicode digits,
underscores in int literals, unicode whitespace) are not modelled.  JSON
payloads of the token endpoint are modelled as string-valued objects
(association lists), which covers every shape the claims exercise.
-/

/-- Python truthiness of `os.environ.get(...)`: `None` and `""` are falsy. -/
def truthyOpt : Option String → Bool
  | none => false
  | some s => s != ""

/-- Python `str.strip`'s whitespace test (ASCII part). -/
def pyIsSpace (c : Char) : Bool :=
  c == ' ' || c == '\t' || c == '\n' || c == '\r' || c == '\x0b' || c == '\x0c'

/-- Python `str.strip` on a character list: drop whitespace at both ends. -/
def stripChars (cs : List Char) : List Char :=
  ((cs.dropWhile pyIsSpace).reverse.dropWhile pyIsSpace).reverse

/-- Python `s.split(",")`: split at every comma, keeping empty fields. -/
def splitCommaChars : List Char → List (List Char)
  | [] => [[]]
  | c :: cs =>
    match splitCommaChars cs with
    | [] => [[]]
    | p :: ps => if c = ',' then [] :: p :: ps else (c :: p) :: ps

/-- Value of a nonempty all-digit character list, accumulator style. -/
def digitsValAux : List Char → Nat → Option Nat
  | [], acc => some acc
  | c :: cs, acc =>
    if c.isDigit then digitsValAux cs (acc * 10 + (c.toNat - 48)) else none

/-- Value of a nonempty all-digit character list; `none` otherwise. -/
def digitsVal (cs : List Char) : Option Nat :=
  if cs = [] then none else digitsValAux cs 0

/-- Python `int(s)` on an already-stripped string: optional sign followed by
one or more ASCII digits; anything else raises `ValueError` (`none`). -/
def parseIntChars : List Char → Option Int
  | '-' :: rest => (digitsVal rest).map (fun n => -(n : Int))
  | '+' :: rest => (digitsVal rest).map (fun n => (n : Int))
  | cs => (digitsVal cs).map (fun n => (n : Int))

/-- `DEFAULT_CAMPAIGNS = [2453224, 2448613]` (line 17). -/
def DEFAULT_CAMPAIGNS : List Int := [2453224, 2448613]

/-- The comma-separated fields of `raw` that are nonblank after stripping,
i.e. the `x` with `x.strip()` truthy in the comprehension on line 31. -/
def nonblankFields (raw : String) : List (List Char) :=
  (splitCommaChars raw.toList).filter (fun x => stripChars x != [])

/-- The list comprehension `[int(x.strip()) for x in raw.split(",") if x.strip()]`
on line 31: `none` models the `ValueError` when some field fails `int`. -/
def parsedFields (raw : String) : Option (List Int) :=
  (nonblankFields raw).mapM (fun x => parseIntChars (stripChars x))

/-- `campaigns_from_env` (lines 27–34): if `CAMPAIGN_IDS` strips to a
nonempty string, parse it; on `ValueError` warn and use the defaults;
otherwise use the defaults. -/
def campaigns_from_env (campaignIdsVar : Option String) : List Int :=
  let raw := campaignIdsVar.getD ""
  if stripChars raw.toList != [] then
    match parsedFields raw with
    | some ids => ids
    | none => DEFAULT_CAMPAIGNS
  else
    DEFAULT_CAMPAIGNS

/-- Whether the `WARN: CAMPAIGN_IDS not parseable` branch (line 33) runs. -/
def campaigns_env_warned (campaignIdsVar : Option String) : Bool :=
  let raw := campaignIdsVar.getD ""
  stripChars raw.toList != [] && (parsedFields raw).isNone

/-- The `--enabled` argument: `choices=["auto", "on", "off"]` (line 22). -/
inductive Mode where
  | auto
  | forceOn
  | forceOff
deriving DecidableEq, Repr

/-- `resolve_enabled` (lines 36–42): forced modes pass through; `auto`
is `"on"` iff the current America/New_York hour `h` satisfies
`h >= 9 and h <= 23`.  The wall-clock hour is passed in explicitly. -/
def resolve_enabled (mode : Mode) (nyHour : Nat) : String :=
  match mode with
  | .forceOn => "on"
  | .forceOff => "off"
  | .auto => if 9 ≤ nyHour ∧ nyHour ≤ 23 then "on" else "off"

/-- A token-endpoint HTTP response as the script observes it: status code,
body text, and the result of `resp.json()` — `none` when the body is not
JSON (the call raises), `some payload` for a JSON object with
string-valued fields (the association list). -/
structure TokenResponse where
  status : Nat
  text : String
  json : Option (List (String × String))
deriving DecidableEq, Repr

/-- Python `resp.text[:300]` (line 64): the first 300 characters. -/
def truncatedText (s : String) : String :=
  String.mk (s.toList.take 300)

/-- `payload.get("access_token")` collapsed with the falsiness test on
line 69: a missing key and an empty string are equally falsy, and on
success the returned credential is the field's string value. -/
def payloadToken (payload : List (String × String)) : String :=
  match payload.find? (fun kv => kv.1 == "access_token") with
  | some kv => kv.2
  | none => ""

/-- Failures of the token-exchange response handling (lines 62–71),
carrying exactly what the raised exception's message carries. -/
inductive AuthErr where
  /-- `Token request failed {status}: {resp.text[:300]}` (lines 63–65). -/
  | badStatus (code : Nat) (truncatedBody : String)
  /-- `resp.json()` raised: the body was not JSON (line 67). -/
  | jsonDecode
  /-- `No access_token in token response: {payload}` (line 70): carries the
  full parsed payload, no status code, no truncation. -/
  | noToken (payload : List (String × String))
deriving DecidableEq, Repr

/-- Lines 62–71 of `get_access_token`: classify a token-endpoint response. -/
def tokenFromResponse (resp : TokenResponse) : Except AuthErr String :=
  if resp.status ≠ 200 then
    .error (.badStatus resp.status (truncatedText resp.text))
  else
    match resp.json with
    | none => .error .jsonDecode
    | some payload =>
      let token := payloadToken payload
      if token = "" then .error (.noToken payload) else .ok token

/-- Everything that can make `get_access_token` raise. -/
inductive TokenErr where
  /-- `Missing CLIENT_ID/CLIENT_SECRET` (lines 53–56); raised before any
  network call. -/
  | missingCreds
  /-- `requests.post` to the token endpoint itself raised (network fault). -/
  | netFail
  /-- The response was received but rejected (lines 62–71). -/
  | auth (e : AuthErr)
deriving DecidableEq, Repr

/-- A network call issued by the script, in issue order. -/
inductive NetCall where
  /-- The client-credentials POST to `TOKEN_URL` (line 60). -/
  | tokenExchange
  /-- A toggle POST to `API_URL` with JSON body fields
  `id` and `enabled` (lines 102–104). -/
  | togglePost (id : Int) (enabled : String)
deriving DecidableEq, Repr

def NetCall.isToggle : NetCall → Bool
  | .togglePost _ _ => true
  | _ => false

/-- `get_access_token` (lines 44–71): returns the credential or the error,
paired with the list of network calls it made.  `tokenWire = none` models
`requests.post` itself raising (connection failure / timeout). -/
def get_access_token (accessTokenVar clientIdVar clientSecretVar : Option String)
    (tokenWire : Option TokenResponse) : Except TokenErr String × List NetCall :=
  if truthyOpt accessTokenVar then
    (.ok (accessTokenVar.getD ""), [])
  else if !truthyOpt clientIdVar || !truthyOpt clientSecretVar then
    (.error .missingCreds, [])
  else
    match tokenWire with
    | none => (.error .netFail, [.tokenExchange])
    | some resp =>
      match tokenFromResponse resp with
      | .ok tok => (.ok tok, [.tokenExchange])
      | .error e => (.error (.auth e), [.tokenExchange])

/-- All inputs of one run of `main`: environment variables, parsed
arguments, the current New York hour, and the network oracles.
`toggleWire i` is the outcome of the `i`-th toggle POST: `none` for a
network-level exception, `some (status, text)` for an HTTP response.  -/
structure RunInput where
  campaignIdsVar : Option String
  accessTokenVar : Option String
  clientIdVar : Option String
  clientSecretVar : Option String
  mode : Mode
  dryRun : Bool
  nyHour : Nat
  tokenWire : Option TokenResponse
  toggleWire : Nat → Option (Nat × String)

/-- Observable outcome of one run of `main`: the process exit code, the
ordered network calls, and the per-campaign toggle outcomes (campaign id
paired with its wire outcome). -/
structure RunOutcome where
  exitCode : Nat
  calls : List NetCall
  toggleResults : List (Int × Option (Nat × String))
deriving DecidableEq, Repr

/-- Line 99: `desired = "on" if enabled == "on" else "off"`. -/
def desiredOf (enabled : String) : String :=
  if enabled = "on" then "on" else "off"

/-- The `for cid in campaigns` loop (lines 101–110): the `i`-th toggle
POST gets outcome `w i`; an exception (`none`) is caught per campaign,
so the loop always visits every id in order. -/
def toggleLoop (w : Nat → Option (Nat × String)) :
    Nat → List Int → List (Int × Option (Nat × String))
  | _, [] => []
  | i, cid :: rest => (cid, w i) :: toggleLoop w (i + 1) rest

/-- Body of `main` (lines 76–112) after the campaign list has been
resolved, abstracted over that list.  Dry-run returns before any network
activity (lines 84–86, exit 0).  A failing `get_access_token` is caught
and the process exits 1 (lines 88–92).  Otherwise one toggle POST is
issued per campaign id, in list order, with body `enabled` equal to
`desired` (line 99); each call's exception is caught per campaign
(lines 101–110), and the run falls off the end of `main` with exit 0. -/
def runMainWith (inp : RunInput) (campaigns : List Int) : RunOutcome :=
  let enabled := resolve_enabled inp.mode inp.nyHour
  if inp.dryRun then
    { exitCode := 0, calls := [], toggleResults := [] }
  else
    match get_access_token inp.accessTokenVar inp.clientIdVar inp.clientSecretVar
        inp.tokenWire with
    | (.error _, tcalls) => { exitCode := 1, calls := tcalls, toggleResults := [] }
    | (.ok _, tcalls) =>
      { exitCode := 0
        calls := tcalls ++ campaigns.map (fun cid => .togglePost cid (desiredOf enabled))
        toggleResults := toggleLoop inp.toggleWire 0 campaigns }

/-- `main` (lines 73–112): resolve the campaign list from the environment
(line 75), then run the rest of the procedure. -/
def runMain (inp : RunInput) : RunOutcome :=
  runMainWith inp (campaigns_from_env inp.campaignIdsVar)

/-- The toggle POSTs among a run's network calls. -/
def toggleCalls (out : RunOutcome) : List NetCall :=
  out.calls.filter NetCall.isToggle

/-- `resolve_enabled` only ever returns `"on"` or `"off"`. -/
theorem resolve_enabled_cases (m : Mode) (h : Nat) :
    resolve_enabled m h = "on" ∨ resolve_enabled m h = "off" := by
  cases m with
  | forceOn => exact Or.inl rfl
  | forceOff => exact Or.inr rfl
  | auto =>
    by_cases hc : 9 ≤ h ∧ h ≤ 23
    · exact Or.inl (by simp [resolve_enabled, hc])
    · exact Or.inr (by simp [resolve_enabled, hc])

/-- Line 99's renormalisation `desired = "on" if enabled == "on" else "off"`
is the identity on `resolve_enabled`'s outputs. -/
theorem desiredOf_resolve (m : Mode) (h : Nat) :
    desiredOf (resolve_enabled m h) = resolve_enabled m h := by
  rcases resolve_enabled_cases m h with he | he <;> rw [he] <;> decide

/-- `get_access_token` issues no network call or exactly the token
exchange; in particular it never issues a toggle POST. -/
theorem get_access_token_calls (a c s : Option String) (w : Option TokenResponse) :
    (get_access_token a c s w).2 = [] ∨
      (get_access_token a c s w).2 = [NetCall.tokenExchange] := by
  unfold get_access_token
  split
  · exact Or.inl rfl
  · split
    · exact Or.inl rfl
    · rcases w with _ | resp
      · exact Or.inr rfl
      · simp only
        split <;> exact Or.inr rfl

theorem token_calls_no_toggle (tcalls : List NetCall)
    (h : tcalls = [] ∨ tcalls = [NetCall.tokenExchange]) :
    tcalls.filter NetCall.isToggle = [] := by
  rcases h with h | h <;> subst h <;> rfl

/-- The loop visits every campaign id, in order, whatever the wire does. -/
theorem toggleLoop_map_fst (w : Nat → Option (Nat × String)) (i : Nat) (l : List Int) :
    (toggleLoop w i l).map Prod.fst = l := by
  induction l generalizing i with
  | nil => rfl
  | cons cid rest ih => simp [toggleLoop, ih]

/-- Branch lemma: a dry-run returns before any network activity with exit 0. -/
theorem runMain_dry (inp : RunInput) (hdry : inp.dryRun = true) :
    runMain inp = { exitCode := 0, calls := [], toggleResults := [] } := by
  unfold runMain runMainWith
  rw [hdry]
  rfl

/-- Branch lemma: a non-dry-run whose credential resolution fails exits 1
with exactly the credential-phase network calls. -/
theorem runMain_token_error (inp : RunInput) (e : TokenErr) (tcalls : List NetCall)
    (hdry : inp.dryRun = false)
    (herr : get_access_token inp.accessTokenVar inp.clientIdVar inp.clientSecretVar
        inp.tokenWire = (Except.error e, tcalls)) :
    runMain inp = { exitCode := 1, calls := tcalls, toggleResults := [] } := by
  unfold runMain runMainWith
  rw [hdry, herr]
  rfl

/-- Branch lemma: a non-dry-run whose credential resolution succeeds issues
the token-phase calls followed by one toggle POST per campaign and exits 0. -/
theorem runMain_token_ok (inp : RunInput) (tok : String) (tcalls : List NetCall)
    (hdry : inp.dryRun = false)
    (hok : get_access_token inp.accessTokenVar inp.clientIdVar inp.clientSecretVar
        inp.tokenWire = (Except.ok tok, tcalls)) :
    runMain inp =
      { exitCode := 0
        calls := tcalls ++ (campaigns_from_env inp.campaignIdsVar).map
          (fun cid =>
            NetCall.togglePost cid (desiredOf (resolve_enabled inp.mode inp.nyHour)))
        toggleResults := toggleLoop inp.toggleWire 0 (campaigns_from_env inp.campaignIdsVar) } := by
  unfold runMain runMainWith
  rw [hdry, hok]
  rfl

/-- C1. In a non-dry-run in which the token was obtained, the toggle POSTs
issued are exactly one per resolved campaign id, in input-list order, each
with body field `enabled` equal to the one state computed by
`resolve_enabled` at the start of the run; and the per-campaign results
cover every campaign id in order, for every toggle-wire behaviour
(so one campaign's failure never suppresses the later calls). -/
theorem toggle_batch_per_campaign (inp : RunInput) (tok : String) (tcalls : List NetCall)
    (hdry : inp.dryRun = false)
    (hok : get_access_token inp.accessTokenVar inp.clientIdVar inp.clientSecretVar
        inp.tokenWire = (Except.ok tok, tcalls)) :
    toggleCalls (runMain inp)
      = (campaigns_from_env inp.campaignIdsVar).map
          (fun cid => NetCall.togglePost cid (resolve_enabled inp.mode inp.nyHour)) ∧
    (toggleCalls (runMain inp)).length = (campaigns_from_env inp.campaignIdsVar).length ∧
    (runMain inp).toggleResults.map Prod.fst = campaigns_from_env inp.campaignIdsVar := by
  have hnotog : tcalls.filter NetCall.isToggle = [] := by
    apply token_calls_no_toggle
    have := get_access_token_calls inp.accessTokenVar inp.clientIdVar inp.clientSecretVar
      inp.tokenWire
    rwa [hok] at this
  rw [runMain_token_ok inp tok tcalls hdry hok]
  simp only [toggleCalls, desiredOf_resolve, List.filter_append, hnotog, List.nil_append]
  have hmap : ((campaigns_from_env inp.campaignIdsVar).map
      (fun cid => NetCall.togglePost cid (resolve_enabled inp.mode inp.nyHour))).filter
        NetCall.isToggle
      = (campaigns_from_env inp.campaignIdsVar).map
          (fun cid => NetCall.togglePost cid (resolve_enabled inp.mode inp.nyHour)) := by
    rw [List.filter_eq_self]
    intro a ha
    rcases List.mem_map.mp ha with ⟨cid, _, rfl⟩
    rfl
  rw [hmap]
  refine ⟨rfl, by rw [List.length_map], ?_⟩
  exact toggleLoop_map_fst inp.toggleWire 0 _

/-- C1 witness: two campaign ids from the environment, static token, forced
on, every toggle call failing at the network level — both calls are still
issued in order. -/
def c1Input : RunInput :=
  { campaignIdsVar := some "111,222"
    accessTokenVar := some "tok"
    clientIdVar := none
    clientSecretVar := none
    mode := .forceOn
    dryRun := false
    nyHour := 10
    tokenWire := none
    toggleWire := fun _ => none }

theorem toggle_batch_per_campaign_witness :
    c1Input.dryRun = false ∧
    get_access_token c1Input.accessTokenVar c1Input.clientIdVar c1Input.clientSecretVar
        c1Input.tokenWire = (Except.ok "tok", []) ∧
    (toggleCalls (runMain c1Input)
      = (campaigns_from_env c1Input.campaignIdsVar).map
          (fun cid => NetCall.togglePost cid (resolve_enabled c1Input.mode c1Input.nyHour)) ∧
    (toggleCalls (runMain c1Input)).length
      = (campaigns_from_env c1Input.campaignIdsVar).length ∧
    (runMain c1Input).toggleResults.map Prod.fst = campaigns_from_env c1Input.campaignIdsVar) :=
  ⟨rfl, rfl, toggle_batch_per_campaign c1Input "tok" [] rfl rfl⟩

/-- C2. For every wall-clock hour `h < 24` in America/New_York, automatic
mode computes `"on"` exactly when `9 ≤ h < 24`, the default half-open
window `[9, 24)`. -/
theorem auto_window_default (h : Nat) (hlt : h < 24) :
    resolve_enabled .auto h = "on" ↔ (9 ≤ h ∧ h < 24) := by
  unfold resolve_enabled
  by_cases hc : 9 ≤ h ∧ h ≤ 23
  · rw [if_pos hc]
    simp only [iff_true_intro rfl, true_iff]
    omega
  · rw [if_neg hc]
    constructor
    · intro hco
      exact absurd hco (by decide)
    · intro hw
      omega

theorem auto_window_default_witness :
    10 < 24 ∧ (resolve_enabled .auto 10 = "on" ↔ (9 ≤ 10 ∧ 10 < 24)) :=
  ⟨by decide, auto_window_default 10 (by decide)⟩

/-- C3. The exit code is 0 exactly when the run is a dry-run or credential
resolution succeeded (configuration and authentication setup), and the
toggle wire — per-campaign HTTP or network outcomes — never changes the
exit code. -/
theorem exit_code_setup_only (inp : RunInput) :
    ((runMain inp).exitCode = 0 ↔
      (inp.dryRun = true ∨
        ∃ tok tcalls,
          get_access_token inp.accessTokenVar inp.clientIdVar inp.clientSecretVar
            inp.tokenWire = (Except.ok tok, tcalls))) ∧
    ((runMain inp).exitCode = 0 ∨ (runMain inp).exitCode = 1) ∧
    (∀ w, (runMain { inp with toggleWire := w }).exitCode = (runMain inp).exitCode) := by
  rcases Bool.eq_false_or_eq_true inp.dryRun with hdry | hdry
  · refine ⟨?_, ?_, ?_⟩
    · rw [runMain_dry inp hdry]
      exact iff_of_true rfl (Or.inl hdry)
    · rw [runMain_dry inp hdry]
      exact Or.inl rfl
    · intro w
      rw [runMain_dry inp hdry, runMain_dry { inp with toggleWire := w } hdry]
  · cases hres : (get_access_token inp.accessTokenVar inp.clientIdVar inp.clientSecretVar
        inp.tokenWire).1 with
    | error e =>
      have hga : get_access_token inp.accessTokenVar inp.clientIdVar inp.clientSecretVar
          inp.tokenWire
          = (Except.error e,
            (get_access_token inp.accessTokenVar inp.clientIdVar inp.clientSecretVar
              inp.tokenWire).2) := by
        rw [← hres]
      have h1 := runMain_token_error inp e _ hdry hga
      refine ⟨?_, ?_, ?_⟩
      · rw [h1]
        constructor
        · intro h
          simp at h
        · rintro (h | ⟨tok, tc, htc⟩)
          · rw [hdry] at h
            exact absurd h (by decide)
          · rw [hga] at htc
            simp at htc
      · rw [h1]
        exact Or.inr rfl
      · intro w
        have h2 := runMain_token_error { inp with toggleWire := w } e _ hdry hga
        rw [h1, h2]
    | ok tok =>
      have hga : get_access_token inp.accessTokenVar inp.clientIdVar inp.clientSecretVar
          inp.tokenWire
          = (Except.ok tok,
            (get_access_token inp.accessTokenVar inp.clientIdVar inp.clientSecretVar
              inp.tokenWire).2) := by
        rw [← hres]
      have h1 := runMain_token_ok inp tok _ hdry hga
      refine ⟨?_, ?_, ?_⟩
      · rw [h1]
        exact iff_of_true rfl (Or.inr ⟨tok, _, hga⟩)
      · rw [h1]
        exact Or.inl rfl
      · intro w
        have h2 := runMain_token_ok { inp with toggleWire := w } tok _ hdry hga
        rw [h1, h2]

/-- A well-formed success response of the token endpoint, used by several
concrete runs below. -/
def okTokenResponse : TokenResponse :=
  { status := 200, text := "ok", json := some [("access_token", "tok")] }

/-- Concrete run with `CAMPAIGN_IDS=","`, client credentials and a working
token endpoint. -/
def c4Input : RunInput :=
  { campaignIdsVar := some ","
    accessTokenVar := none
    clientIdVar := some "id"
    clientSecretVar := some "secret"
    mode := .forceOn
    dryRun := false
    nyHour := 10
    tokenWire := some okTokenResponse
    toggleWire := fun _ => none }

/-- C4 counterexample: with `CAMPAIGN_IDS=","` the resolved campaign set is
empty, yet the run does not fail with a configuration error: it exits 0 and
it does make a network call (the token exchange), contradicting
"ConfigurationError, exit non-zero, zero network calls". -/
theorem empty_set_counterexample :
    campaigns_from_env c4Input.campaignIdsVar = [] ∧
    (runMain c4Input).exitCode = 0 ∧
    (runMain c4Input).calls = [NetCall.tokenExchange] := by
  refine ⟨by decide, by decide, by decide⟩

/-- C4 amended: an empty resolved campaign set does not abort the run.  No
toggle POST is issued and the per-campaign result list is empty, while the
exit code is still decided by the dry-run flag and credential resolution
alone, exactly as in a run with campaigns present. -/
theorem empty_set_proceeds (inp : RunInput)
    (hempty : campaigns_from_env inp.campaignIdsVar = []) :
    toggleCalls (runMain inp) = [] ∧
    (runMain inp).toggleResults = [] ∧
    ((runMain inp).exitCode = 0 ↔
      (inp.dryRun = true ∨
        ∃ tok tcalls,
          get_access_token inp.accessTokenVar inp.clientIdVar inp.clientSecretVar
            inp.tokenWire = (Except.ok tok, tcalls))) := by
  rcases Bool.eq_false_or_eq_true inp.dryRun with hdry | hdry
  · rw [runMain_dry inp hdry]
    exact ⟨rfl, rfl, iff_of_true rfl (Or.inl hdry)⟩
  · cases hres : (get_access_token inp.accessTokenVar inp.clientIdVar inp.clientSecretVar
        inp.tokenWire).1 with
    | error e =>
      have hga : get_access_token inp.accessTokenVar inp.clientIdVar inp.clientSecretVar
          inp.tokenWire
          = (Except.error e,
            (get_access_token inp.accessTokenVar inp.clientIdVar inp.clientSecretVar
              inp.tokenWire).2) := by
        rw [← hres]
      rw [runMain_token_error inp e _ hdry hga]
      refine ⟨?_, rfl, ?_⟩
      · apply token_calls_no_toggle
        have := get_access_token_calls inp.accessTokenVar inp.clientIdVar
          inp.clientSecretVar inp.tokenWire
        exact this
      · constructor
        · intro h
          simp at h
        · rintro (h | ⟨tok, tc, htc⟩)
          · rw [hdry] at h
            exact absurd h (by decide)
          · rw [hga] at htc
            simp at htc
    | ok tok =>
      have hga : get_access_token inp.accessTokenVar inp.clientIdVar inp.clientSecretVar
          inp.tokenWire
          = (Except.ok tok,
            (get_access_token inp.accessTokenVar inp.clientIdVar inp.clientSecretVar
              inp.tokenWire).2) := by
        rw [← hres]
      rw [runMain_token_ok inp tok _ hdry hga, hempty]
      refine ⟨?_, rfl, iff_of_true rfl (Or.inr ⟨tok, _, hga⟩)⟩
      simp only [List.map_nil, List.append_nil, toggleCalls]
      apply token_calls_no_toggle
      exact get_access_token_calls inp.accessTokenVar inp.clientIdVar
        inp.clientSecretVar inp.tokenWire

theorem empty_set_proceeds_witness :
    campaigns_from_env c4Input.campaignIdsVar = [] ∧
    (toggleCalls (runMain c4Input) = [] ∧
     (runMain c4Input).toggleResults = [] ∧
     ((runMain c4Input).exitCode = 0 ↔
       (c4Input.dryRun = true ∨
         ∃ tok tcalls,
           get_access_token c4Input.accessTokenVar c4Input.clientIdVar
             c4Input.clientSecretVar c4Input.tokenWire = (Except.ok tok, tcalls)))) :=
  ⟨by decide, empty_set_proceeds c4Input (by decide)⟩

/-- Concrete run with the unparsable `CAMPAIGN_IDS="abc"` and a static
token. -/
def c5Input : RunInput :=
  { campaignIdsVar := some "abc"
    accessTokenVar := some "tok"
    clientIdVar := none
    clientSecretVar := none
    mode := .forceOn
    dryRun := false
    nyHour := 10
    tokenWire := none
    toggleWire := fun _ => none }

/-- C5 counterexample: `CAMPAIGN_IDS="abc"` cannot be parsed as integers,
yet the run is not aborted before network calls with a non-zero exit: the
warning branch fires, the default campaigns are used, two toggle POSTs go
out, and the exit code is 0. -/
theorem unparsable_counterexample :
    campaigns_env_warned c5Input.campaignIdsVar = true ∧
    campaigns_from_env c5Input.campaignIdsVar = DEFAULT_CAMPAIGNS ∧
    (runMain c5Input).exitCode = 0 ∧
    (runMain c5Input).calls
      = [NetCall.togglePost 2453224 "on", NetCall.togglePost 2448613 "on"] := by
  refine ⟨by decide, by decide, by decide, by decide⟩

/-- C5 amended: an unparsable `CAMPAIGN_IDS` is not fatal.  The warning
branch fires, the default campaign list is substituted, and the run is
identical to one with the variable unset: no abort, no exit-code change. -/
theorem unparsable_falls_back (inp : RunInput) (raw : String)
    (henv : inp.campaignIdsVar = some raw)
    (hnb : stripChars raw.toList ≠ [])
    (hbad : parsedFields raw = none) :
    campaigns_env_warned inp.campaignIdsVar = true ∧
    campaigns_from_env inp.campaignIdsVar = DEFAULT_CAMPAIGNS ∧
    runMain inp = runMain { inp with campaignIdsVar := none } := by
  have hnb' : (stripChars raw.toList != []) = true := bne_iff_ne.mpr hnb
  have hcfe : campaigns_from_env inp.campaignIdsVar = DEFAULT_CAMPAIGNS := by
    rw [henv]
    unfold campaigns_from_env
    simp only [Option.getD_some, hnb', hbad, if_true]
  refine ⟨?_, hcfe, ?_⟩
  · rw [henv]
    unfold campaigns_env_warned
    simp only [Option.getD_some, hnb', hbad, Option.isNone_none, Bool.and_self]
  · have h2 : runMain { inp with campaignIdsVar := none }
        = runMainWith inp DEFAULT_CAMPAIGNS := rfl
    have h3 : runMain inp = runMainWith inp (campaigns_from_env inp.campaignIdsVar) := rfl
    rw [h3, h2, hcfe]

theorem unparsable_falls_back_witness :
    c5Input.campaignIdsVar = some "abc" ∧
    stripChars "abc".toList ≠ [] ∧
    parsedFields "abc" = none ∧
    (campaigns_env_warned c5Input.campaignIdsVar = true ∧
     campaigns_from_env c5Input.campaignIdsVar = DEFAULT_CAMPAIGNS ∧
     runMain c5Input = runMain { c5Input with campaignIdsVar := none }) :=
  ⟨rfl, by decide, by decide, unparsable_falls_back c5Input "abc" rfl (by decide) (by decide)⟩

/-- C6. A configured (truthy, i.e. nonempty) static `ACCESS_TOKEN` is
returned as-is and no network call is made, whatever the client id, client
secret and token endpoint would have answered. -/
theorem static_token_no_network (c s : Option String) (w : Option TokenResponse)
    (t : String) (ht : t ≠ "") :
    get_access_token (some t) c s w = (Except.ok t, []) := by
  have htr : truthyOpt (some t) = true := bne_iff_ne.mpr ht
  unfold get_access_token
  rw [htr]
  rfl

theorem static_token_no_network_witness :
    "tok" ≠ "" ∧
    get_access_token (some "tok") (some "id") (some "secret") (some okTokenResponse)
      = (Except.ok "tok", []) :=
  ⟨by decide, static_token_no_network (some "id") (some "secret")
    (some okTokenResponse) "tok" (by decide)⟩

/-- Whether an auth failure carries the HTTP status code together with the
300-character truncation of the response body — what the claim promises of
every token-exchange failure. -/
def AuthErr.carriesStatusTrunc : AuthErr → Nat → String → Bool
  | .badStatus c t, st, body => c == st && t == truncatedText body
  | _, _, _ => false

/-- A 200 response whose JSON object lacks `access_token`. -/
def c7Resp : TokenResponse := { status := 200, text := "\x7b\x7d", json := some [] }

/-- C7 counterexample: a 200 JSON response without `access_token` fails,
but the raised error carries only the parsed payload — neither the status
code nor a truncated copy of the response body, contrary to the claim's
"in every other case". -/
theorem token_response_counterexample :
    tokenFromResponse c7Resp = Except.error (AuthErr.noToken []) ∧
    (AuthErr.noToken []).carriesStatusTrunc c7Resp.status c7Resp.text = false := by
  refine ⟨rfl, rfl⟩

/-- C7 amended: resolution succeeds with the `access_token` value iff the
status is 200 and the JSON payload has a nonempty `access_token`.  On
failure the error depends on the case: a non-200 status carries the status
code and the body truncated to 300 characters; a 200 non-JSON body raises
a JSON decode error; a 200 JSON body without a usable token carries the
full payload, with no status code and no truncation. -/
theorem token_response_classified (resp : TokenResponse) :
    ((∃ t, tokenFromResponse resp = Except.ok t) ↔
      (resp.status = 200 ∧ ∃ p, resp.json = some p ∧ payloadToken p ≠ "")) ∧
    (∀ t, tokenFromResponse resp = Except.ok t →
      ∃ p, resp.json = some p ∧ payloadToken p = t) ∧
    (resp.status ≠ 200 →
      tokenFromResponse resp
        = Except.error (AuthErr.badStatus resp.status (truncatedText resp.text))) ∧
    (truncatedText resp.text).length ≤ 300 ∧
    (resp.status = 200 → resp.json = none →
      tokenFromResponse resp = Except.error AuthErr.jsonDecode) ∧
    (∀ p, resp.status = 200 → resp.json = some p → payloadToken p = "" →
      tokenFromResponse resp = Except.error (AuthErr.noToken p)) := by
  have hlen : (truncatedText resp.text).length ≤ 300 := by
    show (resp.text.toList.take 300).length ≤ 300
    rw [List.length_take]
    exact min_le_left _ _
  rcases resp with ⟨st, tx, j⟩
  by_cases h200 : st = 200
  · subst h200
    cases j with
    | none =>
      refine ⟨?_, ?_, ?_, hlen, ?_, ?_⟩
      · simp [tokenFromResponse]
      · intro t ht
        simp [tokenFromResponse] at ht
      · intro h
        exact absurd rfl h
      · intro _ _
        rfl
      · intro p _ hp
        simp at hp
    | some payload =>
      by_cases hp : payloadToken payload = ""
      · refine ⟨?_, ?_, ?_, hlen, ?_, ?_⟩
        · simp [tokenFromResponse, hp]
        · intro t ht
          simp [tokenFromResponse, hp] at ht
        · intro h
          exact absurd rfl h
        · intro _ h
          simp at h
        · intro p _ hpeq hpe
          have : p = payload := by
            injection hpeq with h
            exact h.symm
          subst this
          simp [tokenFromResponse, hpe]
      · refine ⟨?_, ?_, ?_, hlen, ?_, ?_⟩
        · simp [tokenFromResponse, hp]
        · intro t ht
          simp only [tokenFromResponse, if_neg (by simp : ¬(200 : Nat) ≠ 200)] at ht
          rw [if_neg hp] at ht
          injection ht with h
          exact ⟨payload, rfl, h⟩
        · intro h
          exact absurd rfl h
        · intro _ h
          simp at h
        · intro p _ hpeq hpe
          have : p = payload := by
            injection hpeq with h
            exact h.symm
          subst this
          exact absurd hpe hp
  · refine ⟨?_, ?_, ?_, hlen, ?_, ?_⟩
    · simp [tokenFromResponse, h200]
    · intro t ht
      simp [tokenFromResponse, h200] at ht
    · intro _
      simp [tokenFromResponse, h200]
    · intro h
      exact absurd h h200
    · intro p h
      exact absurd h h200

/-- C8. When credential resolution fails in a non-dry-run, the run exits 1
and no toggle POST is attempted: no toggle call on the wire and an empty
per-campaign result list. -/
theorem auth_failure_aborts (inp : RunInput) (e : TokenErr) (tcalls : List NetCall)
    (hdry : inp.dryRun = false)
    (herr : get_access_token inp.accessTokenVar inp.clientIdVar inp.clientSecretVar
        inp.tokenWire = (Except.error e, tcalls)) :
    (runMain inp).exitCode = 1 ∧
    toggleCalls (runMain inp) = [] ∧
    (runMain inp).toggleResults = [] := by
  rw [runMain_token_error inp e tcalls hdry herr]
  refine ⟨rfl, ?_, rfl⟩
  apply token_calls_no_toggle
  have := get_access_token_calls inp.accessTokenVar inp.clientIdVar inp.clientSecretVar
    inp.tokenWire
  rwa [herr] at this

/-- Concrete run in which the token endpoint answers HTTP 401. -/
def c8Input : RunInput :=
  { campaignIdsVar := some "111,222"
    accessTokenVar := none
    clientIdVar := some "id"
    clientSecretVar := some "secret"
    mode := .forceOn
    dryRun := false
    nyHour := 10
    tokenWire := some { status := 401, text := "denied", json := none }
    toggleWire := fun _ => some (200, "ok") }

theorem auth_failure_aborts_witness :
    c8Input.dryRun = false ∧
    get_access_token c8Input.accessTokenVar c8Input.clientIdVar c8Input.clientSecretVar
        c8Input.tokenWire
      = (Except.error (TokenErr.auth (AuthErr.badStatus 401 (truncatedText "denied"))),
        [NetCall.tokenExchange]) ∧
    ((runMain c8Input).exitCode = 1 ∧
     toggleCalls (runMain c8Input) = [] ∧
     (runMain c8Input).toggleResults = []) :=
  ⟨rfl, rfl, auth_failure_aborts c8Input
    (TokenErr.auth (AuthErr.badStatus 401 (truncatedText "denied")))
    [NetCall.tokenExchange] rfl rfl⟩

/-- C9. A dry-run makes zero network calls — no token exchange, no toggle
POST — and exits 0, whatever the rest of the configuration and the wire
oracles hold. -/
theorem dry_run_no_network (inp : RunInput) (hdry : inp.dryRun = true) :
    (runMain inp).calls = [] ∧ (runMain inp).exitCode = 0 := by
  rw [runMain_dry inp hdry]
  exact ⟨rfl, rfl⟩

/-- A fully armed configuration — campaigns, static token, client
credentials, responsive endpoints — with the dry-run flag set. -/
def c9Input : RunInput :=
  { campaignIdsVar := some "111,222"
    accessTokenVar := some "tok"
    clientIdVar := some "id"
    clientSecretVar := some "secret"
    mode := .forceOn
    dryRun := true
    nyHour := 10
    tokenWire := some okTokenResponse
    toggleWire := fun _ => some (200, "ok") }

theorem dry_run_no_network_witness :
    c9Input.dryRun = true ∧
    ((runMain c9Input).calls = [] ∧ (runMain c9Input).exitCode = 0) :=
  ⟨rfl, dry_run_no_network c9Input rfl⟩

/-- C10. If `CAMPAIGN_IDS` is set to separators and whitespace only — it
does not strip to empty, yet every comma-separated field is blank — the
resolved campaign list is empty and the run does not fail: in a non-dry
run credentials are still resolved (here successfully, so the run's calls
are exactly the credential phase's, e.g. the token exchange), zero toggle
POSTs are issued, and the exit code is 0. -/
theorem separators_only_proceeds (inp : RunInput) (raw : String) (tok : String)
    (tcalls : List NetCall)
    (henv : inp.campaignIdsVar = some raw)
    (hnb : stripChars raw.toList ≠ [])
    (hsep : nonblankFields raw = [])
    (hdry : inp.dryRun = false)
    (hok : get_access_token inp.accessTokenVar inp.clientIdVar inp.clientSecretVar
        inp.tokenWire = (Except.ok tok, tcalls)) :
    campaigns_from_env inp.campaignIdsVar = [] ∧
    (runMain inp).exitCode = 0 ∧
    toggleCalls (runMain inp) = [] ∧
    (runMain inp).calls = tcalls := by
  have hnb' : (stripChars raw.toList != []) = true := bne_iff_ne.mpr hnb
  have hp : parsedFields raw = some [] := by
    unfold parsedFields
    rw [hsep]
    rfl
  have hempty : campaigns_from_env inp.campaignIdsVar = [] := by
    rw [henv]
    unfold campaigns_from_env
    simp only [Option.getD_some, hnb', hp, if_true]
  have hnotog : tcalls.filter NetCall.isToggle = [] := by
    apply token_calls_no_toggle
    have := get_access_token_calls inp.accessTokenVar inp.clientIdVar inp.clientSecretVar
      inp.tokenWire
    rwa [hok] at this
  rw [runMain_token_ok inp tok tcalls hdry hok, hempty]
  refine ⟨rfl, rfl, ?_, ?_⟩
  · simp only [List.map_nil, List.append_nil, toggleCalls]
    exact hnotog
  · simp only [List.map_nil, List.append_nil]

/-- Concrete run with `CAMPAIGN_IDS=","`, client credentials and a working
token endpoint, for the C10 witness. -/
def c10Input : RunInput :=
  { campaignIdsVar := some ","
    accessTokenVar := none
    clientIdVar := some "id"
    clientSecretVar := some "secret"
    mode := .forceOn
    dryRun := false
    nyHour := 10
    tokenWire := some okTokenResponse
    toggleWire := fun _ => none }

theorem separators_only_proceeds_witness :
    c10Input.campaignIdsVar = some "," ∧
    stripChars ",".toList ≠ [] ∧
    nonblankFields "," = [] ∧
    c10Input.dryRun = false ∧
    get_access_token c10Input.accessTokenVar c10Input.clientIdVar
        c10Input.clientSecretVar c10Input.tokenWire
      = (Except.ok "tok", [NetCall.tokenExchange]) ∧
    (campaigns_from_env c10Input.campaignIdsVar = [] ∧
     (runMain c10Input).exitCode = 0 ∧
     toggleCalls (runMain c10Input) = [] ∧
     (runMain c10Input).calls = [NetCall.tokenExchange]) :=
  ⟨rfl, by decide, by decide, rfl, rfl,
    separators_only_proceeds c10Input "," "tok" [NetCall.tokenExchange]
      rfl (by decide) (by decide) rfl rfl⟩
